import Mathlib

/-!
Verification of the personal finance tracker's split-expense and ledger-balance
core (Express routes in src/unnamed/part_001, shared Drizzle schema in
src/unnamed/part_000) against its natural-language specification.

Modelling conventions.
* Money columns are declared decimal(12, 2) in the schema, so a persisted
  amount or balance is an exact multiple of 0.01; the model stores it as an
  integer number of cents (the numeric(12,2) bound of 10 digits before the
  point is not modelled).  Request bodies carry amounts as raw strings,
  exactly as the zod schemas do (drizzle-zod maps every picked column of these
  tables, decimal columns included, to a plain string with no sign, range or
  format constraint).
* A decimal string parses to an exact scaled integer (mantissa over a power of
  ten).  The source parses such strings twice: the numeric(12,2) column parses
  the text on insert, rounding ties away from zero at scale 2 (roundHalfAway),
  and parseFloat parses it for balance/share arithmetic.  The balance pipeline
  is modelled on the exact value rounded to cents: for amounts of scale <= 2
  the doubles involved err by far less than half a cent and the exact result
  is itself a whole number of cents, never a tie, so the double pipeline and
  the exact model store identical cents (every balance theorem hypothesises
  such amounts).  The share computation
  (parseFloat(amount) / count).toFixed(2) is modelled bit-faithfully instead:
  nearestDouble rounds an exact fraction to the nearest IEEE binary64 (ties to
  even), the division is the correctly rounded double quotient, and toFixed
  rounds the double's exact value half toward positive infinity — so
  half-cent ties land exactly where the program puts them (0.03 over two
  participants stores 0.01 per share, not 0.02).
* Database ids are gen_random_uuid() in the schema; the model draws them from
  a counter in the state.
* Comma splitting and trimming of the participants free text are modelled by
  structural recursion over the character list with the semantics of
  JavaScript String.prototype.split(',')/trim().
-/

namespace PFT

/-- Whitespace as trimmed by JavaScript String.prototype.trim: the ECMAScript
WhiteSpace and LineTerminator sets (tab, LF, VT, FF, CR, space, NBSP, the
Unicode Zs spaces, LS, PS, narrow/medium math spaces, ideographic space, and
the byte-order mark). -/
def isWsChar (c : Char) : Bool :=
  let n := c.toNat
  n == 9 || n == 10 || n == 11 || n == 12 || n == 13 || n == 32 || n == 160 ||
    n == 5760 || (decide (8192 ≤ n) && decide (n ≤ 8202)) || n == 8232 ||
    n == 8233 || n == 8239 || n == 8287 || n == 12288 || n == 65279

/-- Helper for jsSplitComma: accumulates the current field (reversed). -/
def splitCommaAux : List Char → List Char → List (List Char)
  | [], acc => [acc.reverse]
  | ',' :: cs, acc => acc.reverse :: splitCommaAux cs []
  | c :: cs, acc => splitCommaAux cs (c :: acc)

/-- JavaScript s.split(','): note that the empty string yields [""], never []. -/
def jsSplitComma (s : String) : List String :=
  (splitCommaAux s.data []).map (fun l => String.mk l)

/-- JavaScript s.trim(). -/
def jsTrim (s : String) : String :=
  String.mk (((s.data.dropWhile isWsChar).reverse.dropWhile isWsChar).reverse)

/-- part_001 line 102: participants.split(',').map(name => name.trim()). -/
def splitNames (participants : String) : List String :=
  (jsSplitComma participants).map jsTrim

/-- An exact decimal number m / 10^k, the value denoted by a decimal string. -/
structure DecNum where
  m : Int
  k : Nat
deriving DecidableEq

/-- Characters before the first dot and after it (no dot: everything before). -/
def splitDotAux : List Char → List Char × List Char
  | [] => ([], [])
  | '.' :: cs => ([], cs)
  | c :: cs => ((splitDotAux cs).1.cons c, (splitDotAux cs).2)

/-- Value of a digit list read in base ten. -/
def digitsVal (cs : List Char) : Int :=
  cs.foldl (fun n c => n * 10 + Int.ofNat (c.toNat - 48)) 0

/-- Exact value of a plain decimal string (optional minus sign, digits, one
optional dot).  Models both parses the source performs on such text: the
numeric(12,2) column's input conversion and parseFloat.  The two agree on
every string of this shape; other shapes (which make the column's insert fail,
aborting the request) parse to none. -/
def parseDecimal (s : String) : Option DecNum :=
  let p := match s.data with
    | '-' :: rest => (true, rest)
    | cs => (false, cs)
  let ip := (splitDotAux p.2).1
  let fp := (splitDotAux p.2).2
  if ((ip ++ fp).all fun c => c.isDigit) && !(ip ++ fp).isEmpty then
    some ⟨if p.1 then -digitsVal (ip ++ fp) else digitsVal (ip ++ fp), fp.length⟩
  else none

/-- Round half toward positive infinity of the fraction a / b for b > 0: the
tie rule of Number.prototype.toFixed (pick the larger candidate) and the
reading of round(x, 2 decimal places) in the specification. -/
def roundQ (a b : Int) : Int := Int.fdiv (2 * a + b) (2 * b)

/-- Round half away from zero of a / b for b > 0: the rounding Postgres
numeric applies when storing a value of higher scale into a scale-2 column. -/
def roundHalfAway (a b : Int) : Int :=
  if 0 ≤ a then (2 * a + b) / (2 * b) else -((2 * -a + b) / (2 * b))

/-- Cents stored by the numeric(12,2) column for the exact value d. -/
def toCents (d : DecNum) : Int := roundHalfAway (d.m * 100) ((10 : Int) ^ d.k)

/-- part_001 lines 276-282: parseFloat the stored balance (bal cents) and the
request amount, add or subtract, stringify, store through the scale-2 column;
the cents of the exact computation, which for scale <= 2 amounts agree with
the double pipeline (header note). -/
def newBalanceCents (bal : Int) (d : DecNum) (credit : Bool) : Int :=
  roundHalfAway (bal * (10 : Int) ^ d.k + (if credit then d.m else -d.m) * 100)
    ((10 : Int) ^ d.k)

/-- Double a (and track the exponent down) until 2^52 * b ≤ a; the fuel always
suffices and only the iterations actually taken cost anything. -/
def scaleUp : Nat → Int → Int → Int → Int × Int
  | 0, a, _b, e => (a, e)
  | fuel + 1, a, b, e =>
    if a < 4503599627370496 * b then scaleUp fuel (2 * a) b (e - 1) else (a, e)

/-- Double b (and track the exponent up) until a < 2^53 * b. -/
def scaleDown : Nat → Int → Int → Int → Int × Int
  | 0, _a, b, e => (b, e)
  | fuel + 1, a, b, e =>
    if 9007199254740992 * b ≤ a then scaleDown fuel a (2 * b) (e + 1) else (b, e)

/-- Mantissa M and binary exponent e of the IEEE binary64 nearest to num/den
(num, den > 0): value M * 2^e with 2^52 ≤ M < 2^53, round to nearest, ties to
even.  Overflow and subnormals lie outside every input the routes can see and
are not modelled. -/
def nearestDoublePos (num den : Int) : Int × Int :=
  let fuel := num.natAbs + den.natAbs + 128
  let p1 := scaleUp fuel num den 0
  let p2 := scaleDown fuel p1.1 den p1.2
  let m0 := p1.1 / p2.1
  let r := p1.1 % p2.1
  let m :=
    if 2 * r < p2.1 then m0
    else if p2.1 < 2 * r then m0 + 1
    else if m0 % 2 == 0 then m0 else m0 + 1
  if m == 9007199254740992 then (4503599627370496, p2.2 + 1) else (m, p2.2)

/-- Exact rational value of the binary64 nearest to num/den (den > 0), as a
numerator over a power-of-two denominator. -/
def nearestDouble (num den : Int) : Int × Int :=
  if num = 0 then (0, 1)
  else
    let s : Int := if num < 0 then -1 else 1
    let me := nearestDoublePos (s * num) den
    if 0 ≤ me.2 then (s * me.1 * 2 ^ me.2.toNat, 1)
    else (s * me.1, 2 ^ (-me.2).toNat)

/-- part_001 line 103: (parseFloat(amount) / participantNames.length).toFixed(2)
as cents, modelled on IEEE doubles: parseFloat is the nearest binary64 to the
exact decimal, the division is the correctly rounded double quotient, and
toFixed(2) rounds the double's exact value half toward positive infinity.
The count n is never 0 on the route (a comma split is never empty). -/
def splitShareCents (d : DecNum) (n : Nat) : Int :=
  if n = 0 then 0
  else
    let x := nearestDouble d.m ((10 : Int) ^ d.k)
    let y := nearestDouble x.1 (x.2 * (n : Int))
    roundQ (100 * y.1) y.2

/-- bank_accounts row (part_000 lines 16-23); balance in cents. -/
structure BankAccount where
  id : Nat
  userId : String
  name : String
  accountType : String
  balance : Int
deriving DecidableEq

/-- transactions row (part_000 lines 25-33); amount in cents. -/
structure Transaction where
  id : Nat
  accountId : Nat
  amount : Int
  txType : String
  description : String
deriving DecidableEq

/-- split_expenses row (part_000 lines 35-43); amount in cents. -/
structure SplitExpense where
  id : Nat
  userId : String
  payerName : String
  amount : Int
  description : String
deriving DecidableEq

/-- split_participants row (part_000 lines 45-50); shareAmount in cents. -/
structure SplitParticipant where
  id : Nat
  expenseId : Nat
  name : String
  shareAmount : Int
deriving DecidableEq

/-- The five persisted collections (users are opaque principals here) plus the
id counter standing in for gen_random_uuid(). -/
structure DB where
  nextId : Nat
  accounts : List BankAccount
  transactions : List Transaction
  expenses : List SplitExpense
  participants : List SplitParticipant
deriving DecidableEq

/-- Outcome of a route handler: HTTP status with payload, or error status with
message. -/
inductive RouteResult (α : Type) where
  | ok : Nat → α → RouteResult α
  | err : Nat → String → RouteResult α
deriving DecidableEq

/-- Body of POST /api/transactions after insertTransactionSchema.parse: the
schema (part_000 lines 102-107) only requires the four picked fields to be
strings, so any string amount and any string type pass validation. -/
structure TxBody where
  accountId : Nat
  amount : String
  txType : String
  description : String
deriving DecidableEq

/-- Body of POST /api/split-expense: participants is the raw free text, the
rest is what insertSplitExpenseSchema (part_000 lines 109-113) passes through;
again all plain strings. -/
structure SplitBody where
  payerName : String
  amount : String
  description : String
  participants : String
deriving DecidableEq

/-- Body of PUT /api/split-history/:id after
insertSplitExpenseSchema.partial().parse: the three optional fields; every
other key of the request body is stripped. -/
structure SplitPatch where
  payerName : Option String
  amount : Option String
  description : Option String
deriving DecidableEq

/-- DatabaseStorage.getBankAccount (part_001 lines 255-258). -/
def getBankAccount (db : DB) (id : Nat) : Option BankAccount :=
  db.accounts.find? (fun a => a.id == id)

/-- DatabaseStorage.updateBankAccountBalance (part_001 lines 260-265). -/
def updateBankAccountBalance (db : DB) (accountId : Nat) (newBalance : Int) : DB :=
  { db with accounts := db.accounts.map
                (fun a => if a.id == accountId then { a with balance := newBalance } else a) }

/-- DatabaseStorage.createTransaction (part_001 lines 267-286): insert the row,
re-fetch the account, recompute the balance from the request amount, store it.
none models the insert failing on text the numeric column rejects (the route
then surfaces the error with nothing persisted). -/
def createTransaction (db : DB) (t : TxBody) : Option (DB × Transaction) :=
  match parseDecimal t.amount with
  | none => none
  | some d =>
    let tx : Transaction := ⟨db.nextId, t.accountId, toCents d, t.txType, t.description⟩
    let db1 : DB := { db with nextId := db.nextId + 1, transactions := db.transactions ++ [tx] }
    match getBankAccount db1 t.accountId with
    | some account =>
        some (updateBankAccountBalance db1 t.accountId
          (newBalanceCents account.balance d (t.txType == "credit")), tx)
    | none => some (db1, tx)

/-- DatabaseStorage.deleteTransaction (part_001 lines 316-318): delete only;
the account balance is not touched. -/
def deleteTransaction (db : DB) (id : Nat) : DB :=
  { db with transactions := db.transactions.filter (fun t => t.id != id) }

/-- POST /api/transactions (part_001 lines 39-54): ownership check, then
createTransaction. -/
def postTransactions (userId : String) (body : TxBody) (db : DB) : DB × RouteResult Transaction :=
  match getBankAccount db body.accountId with
  | none => (db, .err 403 "Access denied to this account")
  | some account =>
    if account.userId ≠ userId then (db, .err 403 "Access denied to this account")
    else
      match createTransaction db body with
      | some (db1, tx) => (db1, .ok 201 tx)
      | none => (db, .err 500 "invalid input syntax for type numeric")

/-- DELETE /api/transactions/:id (part_001 lines 82-90): the handler never
reads the principal beyond the authentication middleware and performs no
ownership check. -/
def deleteTransactionRoute (_userId : String) (id : Nat) (db : DB) : DB × RouteResult Unit :=
  (deleteTransaction db id, .ok 204 ())

/-- Rows created by DatabaseStorage.createSplitParticipants (part_001 lines
328-334), with ids drawn sequentially from the counter. -/
def createSplitParticipantRows (nextId : Nat) (expenseId : Nat) :
    List (String × Int) → List SplitParticipant
  | [] => []
  | (n, s) :: rest => ⟨nextId, expenseId, n, s⟩ :: createSplitParticipantRows (nextId + 1) expenseId rest

/-- DatabaseStorage.createSplitParticipants (part_001 lines 328-334). -/
def createSplitParticipants (db : DB) (expenseId : Nat) (ps : List (String × Int)) : DB :=
  { db with nextId := db.nextId + ps.length,
            participants := db.participants ++ createSplitParticipantRows db.nextId expenseId ps }

/-- Result of POST /api/split-expense (part_001 lines 114-127): the stored
expense, the participants array echoed back (name with the toFixed(2) share,
held as cents), and the calculations object.  totalAmount is
parseFloat(amount); sharePerPerson and the owedToPayer amounts are
parseFloat of the toFixed(2) share, an exact multiple of 0.01, held as cents. -/
structure SplitResponse where
  expense : SplitExpense
  participantsOut : List (String × Int)
  totalAmount : DecNum
  sharePerPersonCents : Int
  owedToPayer : List (String × Int)
deriving DecidableEq

/-- POST /api/split-expense (part_001 lines 93-133): validate (strings only),
persist the expense (createSplitExpense, lines 320-326), comma-split the raw
participants text, compute one equal share, persist one participant row per
name, and return the derived calculations.  A failing amount parse makes the
expense insert itself fail, so nothing is persisted on that branch. -/
def postSplitExpense (userId : String) (body : SplitBody) (db : DB) :
    DB × RouteResult SplitResponse :=
  match parseDecimal body.amount with
  | none => (db, .err 500 "invalid input syntax for type numeric")
  | some d =>
    let e : SplitExpense := ⟨db.nextId, userId, body.payerName, toCents d, body.description⟩
    let db1 : DB := { db with nextId := db.nextId + 1, expenses := db.expenses ++ [e] }
    let names := splitNames body.participants
    let share := splitShareCents d names.length
    let rows := names.map (fun n => (n, share))
    let db2 := createSplitParticipants db1 e.id rows
    (db2, .ok 201
      { expense := e
        participantsOut := rows
        totalAmount := d
        sharePerPersonCents := share
        owedToPayer := (names.filter (fun n => n != body.payerName)).map (fun n => (n, share)) })

/-- DatabaseStorage.updateSplitExpense (part_001 lines 356-361): patch the
supplied columns of the matching row; amountCents is the parsed scale-2 value
of the patch's amount text when present. -/
def updateSplitExpense (db : DB) (id : Nat) (payerName : Option String)
    (amountCents : Option Int) (description : Option String) : DB :=
  { db with expenses := db.expenses.map (fun e =>
                if e.id == id then
                  { e with payerName := payerName.getD e.payerName,
                           amount := amountCents.getD e.amount,
                           description := description.getD e.description }
                else e) }

/-- PUT /api/split-history/:id (part_001 lines 144-153): no ownership check;
an empty patch makes the update builder throw before any write; a malformed
amount makes the numeric column reject the update. -/
def putSplitHistory (_userId : String) (id : Nat) (patch : SplitPatch) (db : DB) :
    DB × RouteResult Unit :=
  if patch.payerName.isNone && patch.amount.isNone && patch.description.isNone then
    (db, .err 500 "No values to set")
  else
    match patch.amount with
    | none => (updateSplitExpense db id patch.payerName none patch.description, .ok 204 ())
    | some s =>
      match parseDecimal s with
      | none => (db, .err 500 "invalid input syntax for type numeric")
      | some d => (updateSplitExpense db id patch.payerName (some (toCents d)) patch.description, .ok 204 ())

/-- DatabaseStorage.deleteSplitExpense (part_001 lines 363-365); deleting the
expense cascades to its participant rows through the schema's onDelete cascade
(part_000 line 47). -/
def deleteSplitExpense (db : DB) (id : Nat) : DB :=
  { db with expenses := db.expenses.filter (fun e => e.id != id),
            participants := db.participants.filter (fun p => p.expenseId != id) }

/-- DELETE /api/split-history/:id (part_001 lines 155-163): no ownership check. -/
def deleteSplitHistoryRoute (_userId : String) (id : Nat) (db : DB) : DB × RouteResult Unit :=
  (deleteSplitExpense db id, .ok 204 ())

/-- Cents of the parsed amount of a transaction request (0 if unparseable;
the theorems that use it always hypothesise a successful parse). -/
def txCents (r : TxBody) : Int :=
  match parseDecimal r.amount with
  | some d => toCents d
  | none => 0

/-- Sum of the credited cents of a request sequence. -/
def creditTotal (rs : List TxBody) : Int :=
  ((rs.filter (fun r => r.txType == "credit")).map txCents).sum

/-- Sum of the debited cents of a request sequence. -/
def debitTotal (rs : List TxBody) : Int :=
  ((rs.filter (fun r => r.txType == "debit")).map txCents).sum

/-- Apply a sequence of POST /api/transactions calls, threading the state. -/
def runTransactions (userId : String) (rs : List TxBody) (db : DB) : DB :=
  rs.foldl (fun d r => (postTransactions userId r d).1) db

/-- Decimal digit character. -/
def digitChar (n : Nat) : Char := Char.ofNat (48 + n)

/-- Digits of n, most significant first; fuel-based so the kernel can reduce
it (fuel n always suffices). -/
def natDigitsAux : Nat → Nat → List Char
  | 0, _ => []
  | fuel + 1, n => if n = 0 then [] else natDigitsAux fuel (n / 10) ++ [digitChar (n % 10)]

/-- Decimal string of a natural number. -/
def natToDecString (n : Nat) : String :=
  if n = 0 then "0" else String.mk (natDigitsAux n n)

/-- JavaScript Number.prototype.toString for a number that is exactly c cents:
the shortest decimal form, dropping trailing fractional zeros.  Faithful
whenever the double holds the value exactly, as at every input where a theorem
evaluates it. -/
def centsToJsString (c : Int) : String :=
  let sign := if c < 0 then "-" else ""
  let a := c.natAbs
  if a % 100 == 0 then sign ++ natToDecString (a / 100)
  else if a % 10 == 0 then
    sign ++ natToDecString (a / 100) ++ "." ++ natToDecString ((a % 100) / 10)
  else
    sign ++ natToDecString (a / 100) ++ "." ++
      (if a % 100 < 10 then "0" else "") ++ natToDecString (a % 100)

/-- Scale-2 text of a cents value, the form the numeric(12,2) column yields on
read (and the form toFixed(2) produces). -/
def centsToString2 (c : Int) : String :=
  let sign := if c < 0 then "-" else ""
  let a := c.natAbs
  sign ++ natToDecString (a / 100) ++ "." ++
    (if a % 100 < 10 then "0" else "") ++ natToDecString (a % 100)

/-- The exact string value of newBalance.toString() that part_001 line 282
hands to updateBankAccountBalance for a given state and request (none when the
handler would not reach that line). -/
def balanceStringWritten (db : DB) (body : TxBody) : Option String :=
  match parseDecimal body.amount with
  | none => none
  | some d =>
    match getBankAccount db body.accountId with
    | none => none
    | some account =>
        some (centsToJsString (newBalanceCents account.balance d (body.txType == "credit")))

/-- Count of characters after the first dot of a decimal string. -/
def fracDigitCount (s : String) : Nat := (splitDotAux s.data).2.length

/-! Helper lemmas. -/

/-- Rounding a fraction that is exactly the integer c yields c. -/
theorem roundQ_mul_cancel (c b : Int) (hb : 0 < b) : roundQ (c * b) b = c := by
  have h1 : 2 * (c * b) + b = b * (2 * c + 1) := by ring
  have h2 : 2 * b = b * 2 := by ring
  rw [roundQ, h1, h2, Int.fdiv_eq_ediv _ (by positivity), Int.mul_ediv_mul_of_pos _ _ hb]
  omega

/-- Ties-away-from-zero rounding of an exact integer fraction yields that
integer. -/
theorem halfAway_mul_cancel (c b : Int) (hb : 0 < b) : roundHalfAway (c * b) b = c := by
  rcases le_or_lt 0 c with hc | hc
  · have ha : 0 ≤ c * b := mul_nonneg hc hb.le
    rw [roundHalfAway, if_pos ha]
    have h1 : 2 * (c * b) + b = b * (2 * c + 1) := by ring
    have h2 : 2 * b = b * 2 := by ring
    rw [h1, h2, Int.mul_ediv_mul_of_pos _ _ hb]
    omega
  · have ha : ¬ 0 ≤ c * b := by
      have : c * b < 0 := mul_neg_of_neg_of_pos hc hb
      omega
    rw [roundHalfAway, if_neg ha]
    have h0 : 2 * -(c * b) + b = b * (2 * -c + 1) := by ring
    have h2 : 2 * b = b * 2 := by ring
    rw [h0, h2, Int.mul_ediv_mul_of_pos _ _ hb]
    omega

/-- The numeric(12,2) column stores a value that is exactly c cents as c. -/
theorem toCents_exact (d : DecNum) (c : Int) (hc : d.m * 100 = c * (10 : Int) ^ d.k) :
    toCents d = c := by
  rw [toCents, hc]
  exact halfAway_mul_cancel c _ (by positivity)

/-- The balance recomputation is exact when the amount is exactly c cents. -/
theorem newBalanceCents_exact (bal : Int) (d : DecNum) (credit : Bool) (c : Int)
    (hc : d.m * 100 = c * (10 : Int) ^ d.k) :
    newBalanceCents bal d credit = if credit then bal + c else bal - c := by
  have hpow : (0 : Int) < (10 : Int) ^ d.k := by positivity
  have hneg : -d.m * 100 = -c * (10 : Int) ^ d.k := by
    rw [neg_mul, hc, neg_mul]
  have key : bal * (10 : Int) ^ d.k + (if credit then d.m else -d.m) * 100
      = (if credit then bal + c else bal - c) * (10 : Int) ^ d.k := by
    cases credit with
    | false =>
      simp only [Bool.false_eq_true, if_false]
      rw [hneg]; ring
    | true =>
      simp only [if_true]
      rw [hc]; ring
  rw [newBalanceCents, key]
  exact halfAway_mul_cancel _ _ hpow

/-- Looking up an account after the balance write finds the updated record. -/
theorem find_update_balance (l : List BankAccount) (aid : Nat) (b : Int) (a : BankAccount)
    (h : l.find? (fun x => x.id == aid) = some a) :
    (l.map (fun x => if x.id == aid then { x with balance := b } else x)).find?
        (fun x => x.id == aid) = some { a with balance := b } := by
  induction l with
  | nil => simp at h
  | cons hd tl ih =>
    by_cases hhd : (hd.id == aid) = true
    · rw [@List.find?_cons_of_pos _ (fun x => x.id == aid) hd tl hhd] at h
      obtain rfl : hd = a := by injection h
      rw [List.map_cons, if_pos hhd]
      exact @List.find?_cons_of_pos _ (fun x => x.id == aid) { hd with balance := b } _ hhd
    · rw [@List.find?_cons_of_neg _ (fun x => x.id == aid) hd tl hhd] at h
      rw [List.map_cons, if_neg hhd,
        @List.find?_cons_of_neg _ (fun x => x.id == aid) hd _ hhd]
      exact ih h

/-- Full evaluation of a successful POST /api/transactions call whose amount
text denotes exactly c cents. -/
theorem postTransactions_eq (u : String) (r : TxBody) (db : DB) (a : BankAccount)
    (d : DecNum) (c : Int)
    (ha : getBankAccount db r.accountId = some a) (hu : a.userId = u)
    (hp : parseDecimal r.amount = some d) (hc : d.m * 100 = c * (10 : Int) ^ d.k) :
    postTransactions u r db =
      ({ nextId := db.nextId + 1,
         accounts := db.accounts.map (fun x =>
           if x.id == r.accountId then
             { x with balance := if r.txType == "credit" then a.balance + c else a.balance - c }
           else x),
         transactions := db.transactions ++ [⟨db.nextId, r.accountId, c, r.txType, r.description⟩],
         expenses := db.expenses,
         participants := db.participants },
       .ok 201 ⟨db.nextId, r.accountId, c, r.txType, r.description⟩) := by
  have ha' : db.accounts.find? (fun x => x.id == r.accountId) = some a := ha
  simp only [postTransactions, createTransaction, getBankAccount, updateBankAccountBalance, hp,
    ha', hu, ne_eq, not_true_eq_false, if_false, toCents_exact d c hc,
    newBalanceCents_exact a.balance d _ c hc]

/-- Splitting off the head of a credit sum. -/
theorem creditTotal_cons (r : TxBody) (rs : List TxBody) :
    creditTotal (r :: rs) = (if r.txType == "credit" then txCents r else 0) + creditTotal rs := by
  by_cases h : (r.txType == "credit") = true <;>
    simp [creditTotal, List.filter_cons, h]

/-- Splitting off the head of a debit sum. -/
theorem debitTotal_cons (r : TxBody) (rs : List TxBody) :
    debitTotal (r :: rs) = (if r.txType == "debit" then txCents r else 0) + debitTotal rs := by
  by_cases h : (r.txType == "debit") = true <;>
    simp [debitTotal, List.filter_cons, h]

/-- The cents of a request whose amount text parses to exactly c cents. -/
theorem txCents_of_parse (r : TxBody) (d : DecNum) (c : Int)
    (hp : parseDecimal r.amount = some d) (hc : d.m * 100 = c * (10 : Int) ^ d.k) :
    txCents r = c := by
  rw [txCents, hp]
  exact toCents_exact d c hc

/-- C2, sequence form, proved by induction over the request list (the claim
theorem instantiates it). -/
theorem runTransactions_balance (u : String) (aid : Nat) (rs : List TxBody) :
    ∀ (db : DB) (a : BankAccount),
      getBankAccount db aid = some a → a.userId = u →
      (∀ r ∈ rs, r.accountId = aid ∧ (r.txType = "credit" ∨ r.txType = "debit") ∧
        ∃ d c, parseDecimal r.amount = some d ∧ 0 < d.m ∧ d.m * 100 = c * (10 : Int) ^ d.k) →
      getBankAccount (runTransactions u rs db) aid =
        some { a with balance := a.balance + creditTotal rs - debitTotal rs } := by
  induction rs with
  | nil =>
    intro db a ha _ _
    simpa [runTransactions, creditTotal, debitTotal] using ha
  | cons r rs ih =>
    intro db a ha hu hr
    obtain ⟨hacc, hkind, d, c, hp, _hpos, hc⟩ := hr r (List.mem_cons_self r rs)
    subst hacc
    have hstep := postTransactions_eq u r db a d c ha hu hp hc
    have hrun : runTransactions u (r :: rs) db =
        runTransactions u rs (postTransactions u r db).1 := rfl
    have hfind : getBankAccount (postTransactions u r db).1 r.accountId =
        some { a with balance := if r.txType == "credit" then a.balance + c
                                 else a.balance - c } := by
      rw [hstep]
      exact find_update_balance db.accounts r.accountId _ a ha
    have hrest := ih (postTransactions u r db).1
      { a with balance := if r.txType == "credit" then a.balance + c else a.balance - c }
      hfind hu (fun x hx => hr x (List.mem_cons_of_mem r hx))
    rw [hrun, hrest]
    have hcents : txCents r = c := txCents_of_parse r d c hp hc
    have hbcc : (("credit" : String) == "credit") = true := by decide
    have hbdc : (("debit" : String) == "credit") = false := by decide
    have hbcd : (("credit" : String) == "debit") = false := by decide
    have hbdd : (("debit" : String) == "debit") = true := by decide
    rcases hkind with hk | hk <;>
      simp only [hk, creditTotal_cons, debitTotal_cons, hcents, hbcc, hbdc, hbcd, hbdd,
        if_true, if_false, Bool.false_eq_true, Option.some.injEq, BankAccount.mk.injEq,
        true_and, ite_true, ite_false] <;>
      omega

/-- C2: addTransaction on an existing owned account with a positive 2-decimal
amount updates the stored balance to prior + amount for kind credit and
prior - amount for kind debit; consequently, a sequence of such calls on an
account with initial balance B0 leaves the balance at exactly
B0 + sum of credits - sum of debits, in exact integer-cents arithmetic
(amounts are given as c cents via d.m * 100 = c * 10 ^ d.k). -/
theorem claim_C2_balance :
    (∀ (u : String) (body : TxBody) (db : DB) (a : BankAccount) (d : DecNum) (c : Int),
      getBankAccount db body.accountId = some a → a.userId = u →
      parseDecimal body.amount = some d → 0 < d.m →
      d.m * 100 = c * (10 : Int) ^ d.k →
      getBankAccount (postTransactions u body db).1 body.accountId =
        some { a with balance := if body.txType == "credit" then a.balance + c
                                 else a.balance - c })
    ∧
    (∀ (u : String) (aid : Nat) (rs : List TxBody) (db : DB) (a : BankAccount),
      getBankAccount db aid = some a → a.userId = u →
      (∀ r ∈ rs, r.accountId = aid ∧ (r.txType = "credit" ∨ r.txType = "debit") ∧
        ∃ d c, parseDecimal r.amount = some d ∧ 0 < d.m ∧ d.m * 100 = c * (10 : Int) ^ d.k) →
      getBankAccount (runTransactions u rs db) aid =
        some { a with balance := a.balance + creditTotal rs - debitTotal rs }) := by
  constructor
  · intro u body db a d c ha hu hp _hpos hc
    rw [postTransactions_eq u body db a d c ha hu hp hc, getBankAccount]
    exact find_update_balance db.accounts body.accountId _ a ha
  · intro u aid rs db a ha hu hr
    exact runTransactions_balance u aid rs db a ha hu hr

/-- C2 witness: credit 10.00, debit 3.00, credit 0.50 on a fresh account with
balance 0 ends at exactly 7.50. -/
theorem claim_C2_balance_witness :
    getBankAccount
      (runTransactions "u"
        [⟨1, "10.00", "credit", "salary"⟩, ⟨1, "3.00", "debit", "groceries"⟩,
         ⟨1, "0.50", "credit", "interest"⟩]
        ⟨2, [⟨1, "u", "HDFC Savings", "savings", 0⟩], [], [], []⟩) 1 =
      some ⟨1, "u", "HDFC Savings", "savings", 750⟩ := by
  have h := claim_C2_balance.2 "u" 1
    [⟨1, "10.00", "credit", "salary"⟩, ⟨1, "3.00", "debit", "groceries"⟩,
     ⟨1, "0.50", "credit", "interest"⟩]
    ⟨2, [⟨1, "u", "HDFC Savings", "savings", 0⟩], [], [], []⟩
    ⟨1, "u", "HDFC Savings", "savings", 0⟩
    (by decide) rfl
    (by
      intro r hr
      simp only [List.mem_cons, List.not_mem_nil, or_false] at hr
      rcases hr with rfl | rfl | rfl
      · exact ⟨rfl, Or.inl rfl, ⟨1000, 2⟩, 1000, by decide, by decide, by decide⟩
      · exact ⟨rfl, Or.inr rfl, ⟨300, 2⟩, 300, by decide, by decide, by decide⟩
      · exact ⟨rfl, Or.inl rfl, ⟨50, 2⟩, 50, by decide, by decide, by decide⟩)
  rw [h]
  decide

/-- C3: the invariant fails right after deleteTransaction.  Crediting 10.00 to
a fresh account with balance 0 and then deleting that transaction leaves zero
transactions on record, yet the stored balance stays 10.00 instead of the
initial balance 0 plus the net of the (empty) surviving history:
deleteTransaction never recomputes the balance. -/
theorem claim_C3_delete_keeps_stale_balance :
    (deleteTransactionRoute "u" 2
        (postTransactions "u" ⟨1, "10.00", "credit", "salary"⟩
          ⟨2, [⟨1, "u", "acct", "savings", 0⟩], [], [], []⟩).1).1 =
      ⟨3, [⟨1, "u", "acct", "savings", 1000⟩], [], [], []⟩ := by decide

/-- C5 counterexample: addTransaction with amount -5.00 on an owned account is
not rejected: it answers 201, persists the transaction row, and moves the
balance from 10.00 to 5.00 (credit of -5.00). -/
theorem claim_C5_counterexample :
    postTransactions "u" ⟨1, "-5.00", "credit", "refund"⟩
        ⟨2, [⟨1, "u", "HDFC", "savings", 1000⟩], [], [], []⟩ =
      (⟨3, [⟨1, "u", "HDFC", "savings", 500⟩], [⟨2, 1, -500, "credit", "refund"⟩], [], []⟩,
       RouteResult.ok 201 ⟨2, 1, -500, "credit", "refund"⟩) := by decide

/-- C5 amended: insertTransactionSchema imposes no sign or range constraint on
the amount text, so addTransaction accepts any parseable decimal amount —
non-positive ones such as -5.00 or 0 included — answers 201, persists the
Transaction row, and changes the balance by the signed amount. -/
theorem claim_C5_amended :
    ∀ (u : String) (body : TxBody) (db : DB) (a : BankAccount) (d : DecNum) (c : Int),
      getBankAccount db body.accountId = some a → a.userId = u →
      parseDecimal body.amount = some d → d.m * 100 = c * (10 : Int) ^ d.k →
      (postTransactions u body db).2 =
          RouteResult.ok 201 ⟨db.nextId, body.accountId, c, body.txType, body.description⟩ ∧
      (postTransactions u body db).1.transactions =
          db.transactions ++ [⟨db.nextId, body.accountId, c, body.txType, body.description⟩] ∧
      getBankAccount (postTransactions u body db).1 body.accountId =
          some { a with balance := if body.txType == "credit" then a.balance + c
                                   else a.balance - c } := by
  intro u body db a d c ha hu hp hc
  refine ⟨?_, ?_, ?_⟩
  · rw [postTransactions_eq u body db a d c ha hu hp hc]
  · rw [postTransactions_eq u body db a d c ha hu hp hc]
  · rw [postTransactions_eq u body db a d c ha hu hp hc]
    exact find_update_balance db.accounts body.accountId _ a ha

/-- C5 amended witness: the -5.00 credit at a concrete state. -/
theorem claim_C5_amended_witness :
    (postTransactions "u" ⟨1, "-5.00", "credit", "refund"⟩
        ⟨2, [⟨1, "u", "HDFC", "savings", 1000⟩], [], [], []⟩).2 =
      RouteResult.ok 201 ⟨2, 1, -500, "credit", "refund"⟩ ∧
    getBankAccount (postTransactions "u" ⟨1, "-5.00", "credit", "refund"⟩
        ⟨2, [⟨1, "u", "HDFC", "savings", 1000⟩], [], [], []⟩).1 1 =
      some ⟨1, "u", "HDFC", "savings", 500⟩ := by
  obtain ⟨h1, _h2, h3⟩ := claim_C5_amended "u" ⟨1, "-5.00", "credit", "refund"⟩
    ⟨2, [⟨1, "u", "HDFC", "savings", 1000⟩], [], [], []⟩
    ⟨1, "u", "HDFC", "savings", 1000⟩ ⟨-500, 2⟩ (-500) (by decide) rfl (by decide) (by decide)
  refine ⟨h1, ?_⟩
  rw [h3]
  decide

/-- C6 counterexample: with balance 12.00 and a credit of 0.50 the text the
code hands to updateBankAccountBalance for persistence is "12.5" — one
fractional digit, not the claimed fixed two-digit form, and derived through
the parseFloat/ toString float pipeline. -/
theorem claim_C6_counterexample :
    balanceStringWritten ⟨2, [⟨1, "u", "acct", "savings", 1200⟩], [], [], []⟩
        ⟨1, "0.50", "credit", "topup"⟩ = some "12.5" ∧
    fracDigitCount "12.5" = 1 := by decide

/-- C6 amended: a transaction amount text denoting exactly c cents is stored
as exactly c by the numeric(12,2) column, and the stored c renders at scale 2
as the exact two-digit text (1250 renders as "12.50"); the balance string the
code writes is the shortest float form (1250 cents prints "12.5"), and only
the scale-2 column parse restores the exact cents value from it. -/
theorem claim_C6_amended :
    (∀ (u : String) (body : TxBody) (db : DB) (a : BankAccount) (d : DecNum) (c : Int),
      getBankAccount db body.accountId = some a → a.userId = u →
      parseDecimal body.amount = some d → d.m * 100 = c * (10 : Int) ^ d.k →
      (postTransactions u body db).1.transactions =
        db.transactions ++ [⟨db.nextId, body.accountId, c, body.txType, body.description⟩]) ∧
    (parseDecimal "12.50" = some ⟨1250, 2⟩ ∧ toCents ⟨1250, 2⟩ = 1250 ∧
      centsToString2 1250 = "12.50" ∧ fracDigitCount (centsToString2 1250) = 2) ∧
    (centsToJsString 1250 = "12.5" ∧ parseDecimal "12.5" = some ⟨125, 1⟩ ∧
      toCents ⟨125, 1⟩ = 1250) := by
  refine ⟨?_, by decide, by decide⟩
  intro u body db a d c ha hu hp hc
  rw [postTransactions_eq u body db a d c ha hu hp hc]

/-- C6 amended witness: persisting amount "12.50" stores exactly 1250 cents. -/
theorem claim_C6_amended_witness :
    (postTransactions "u" ⟨1, "12.50", "credit", "rent"⟩
        ⟨2, [⟨1, "u", "acct", "savings", 0⟩], [], [], []⟩).1.transactions =
      [⟨2, 1, 1250, "credit", "rent"⟩] := by
  have h := claim_C6_amended.1 "u" ⟨1, "12.50", "credit", "rent"⟩
    ⟨2, [⟨1, "u", "acct", "savings", 0⟩], [], [], []⟩
    ⟨1, "u", "acct", "savings", 0⟩ ⟨1250, 2⟩ 1250 (by decide) rfl (by decide) (by decide)
  rw [h]
  decide

/-- C8 counterexample: principal u1 deletes the transaction of principal u2's
account; the call answers 204 and removes the row — no PermissionDenied and a
write to the foreign entity. -/
theorem claim_C8_counterexample :
    deleteTransactionRoute "u1" 2
        ⟨3, [⟨1, "u2", "acct", "savings", 500⟩], [⟨2, 1, 500, "debit", "food"⟩], [], []⟩ =
      (⟨3, [⟨1, "u2", "acct", "savings", 500⟩], [], [], []⟩, RouteResult.ok 204 ()) := by decide

/-- C8 amended: only addTransaction checks ownership (answering 403 with no
write when the account belongs to another principal); deleteTransaction,
updateSplit and deleteSplit perform no ownership check at all and, for any
authenticated principal, mutate the targeted entity — whatever its owner —
answering 204: deleteTransaction removes any matching transaction, updateSplit
patches any matching expense (its stored userId, equal or not to the caller,
is irrelevant and preserved), and deleteSplit removes any matching expense
with its shares. -/
theorem claim_C8_amended :
    (∀ (u : String) (id : Nat) (db : DB),
      deleteTransactionRoute u id db =
        ({ db with transactions := db.transactions.filter (fun t => t.id != id) },
         RouteResult.ok 204 ())) ∧
    (∀ (u : String) (id : Nat) (db : DB),
      deleteSplitHistoryRoute u id db =
        ({ db with expenses := db.expenses.filter (fun e => e.id != id),
                   participants := db.participants.filter (fun p => p.expenseId != id) },
         RouteResult.ok 204 ())) ∧
    (∀ (u : String) (id : Nat) (patch : SplitPatch) (db : DB) (s : String) (d : DecNum),
      patch.amount = some s → parseDecimal s = some d →
      (putSplitHistory u id patch db).2 = RouteResult.ok 204 () ∧
      (putSplitHistory u id patch db).1.expenses = db.expenses.map (fun e =>
        if e.id == id then
          ⟨e.id, e.userId, patch.payerName.getD e.payerName, toCents d,
           patch.description.getD e.description⟩
        else e)) ∧
    (∀ (u : String) (body : TxBody) (db : DB) (a : BankAccount),
      getBankAccount db body.accountId = some a → a.userId ≠ u →
      postTransactions u body db = (db, RouteResult.err 403 "Access denied to this account")) := by
  refine ⟨fun _ _ _ => rfl, fun _ _ _ => rfl, ?_, ?_⟩
  · intro u id patch db s d ha hd
    constructor
    · simp [putSplitHistory, ha, hd]
    · simp [putSplitHistory, ha, hd, updateSplitExpense]
  · intro u body db a ha hne
    simp only [postTransactions, ha]
    rw [if_pos hne]

/-- C8 amended witness: the ownership check of addTransaction at a concrete
foreign account, and updateSplit patching another principal's expense with
204. -/
theorem claim_C8_amended_witness :
    postTransactions "u1" ⟨1, "5.00", "debit", "snacks"⟩
        ⟨3, [⟨1, "u2", "acct", "savings", 500⟩], [], [], []⟩ =
      (⟨3, [⟨1, "u2", "acct", "savings", 500⟩], [], [], []⟩,
       RouteResult.err 403 "Access denied to this account") ∧
    (putSplitHistory "u1" 1 ⟨none, some "20.00", none⟩
        ⟨3, [], [], [⟨1, "u2", "P", 5000, "d"⟩], []⟩).2 = RouteResult.ok 204 () ∧
    (putSplitHistory "u1" 1 ⟨none, some "20.00", none⟩
        ⟨3, [], [], [⟨1, "u2", "P", 5000, "d"⟩], []⟩).1.expenses =
      [⟨1, "u2", "P", 2000, "d"⟩] := by
  obtain ⟨hput1, hput2⟩ := claim_C8_amended.2.2.1 "u1" 1 ⟨none, some "20.00", none⟩
    ⟨3, [], [], [⟨1, "u2", "P", 5000, "d"⟩], []⟩ "20.00" ⟨2000, 2⟩ rfl (by decide)
  refine ⟨?_, hput1, hput2.trans (by decide)⟩
  exact claim_C8_amended.2.2.2 "u1" ⟨1, "5.00", "debit", "snacks"⟩
    ⟨3, [⟨1, "u2", "acct", "savings", 500⟩], [], [], []⟩
    ⟨1, "u2", "acct", "savings", 500⟩ (by decide) (by decide)

/-- The participant rows carry exactly the given names, in order. -/
theorem createSplitParticipantRows_names (expenseId : Nat) (ps : List (String × Int)) :
    ∀ base, (createSplitParticipantRows base expenseId ps).map SplitParticipant.name
      = ps.map Prod.fst := by
  induction ps with
  | nil => intro base; rfl
  | cons p rest ih =>
    intro base
    cases p
    simp only [createSplitParticipantRows, List.map_cons]
    rw [ih (base + 1)]

/-- Every row created for a constant-share list carries that share and the
parent expense id. -/
theorem createSplitParticipantRows_share (expenseId : Nat) (share : Int) (names : List String) :
    ∀ base, ∀ r ∈ createSplitParticipantRows base expenseId
        (names.map (fun n => (n, share))),
      r.expenseId = expenseId ∧ r.shareAmount = share := by
  induction names with
  | nil => intro base r hr; exact absurd hr (List.not_mem_nil r)
  | cons n rest ih =>
    intro base r hr
    rw [List.map_cons, createSplitParticipantRows, List.mem_cons] at hr
    rcases hr with rfl | hr
    · exact ⟨rfl, rfl⟩
    · exact ih (base + 1) r hr

/-- Full evaluation of a successful POST /api/split-expense call. -/
theorem postSplitExpense_eq (u : String) (body : SplitBody) (db : DB) (d : DecNum)
    (hp : parseDecimal body.amount = some d) :
    postSplitExpense u body db =
      ({ nextId := db.nextId + 1 + (splitNames body.participants).length,
         accounts := db.accounts,
         transactions := db.transactions,
         expenses := db.expenses ++ [⟨db.nextId, u, body.payerName, toCents d, body.description⟩],
         participants := db.participants ++
           createSplitParticipantRows (db.nextId + 1) db.nextId
             ((splitNames body.participants).map
               (fun n => (n, splitShareCents d (splitNames body.participants).length))) },
       RouteResult.ok 201
         { expense := ⟨db.nextId, u, body.payerName, toCents d, body.description⟩,
           participantsOut := (splitNames body.participants).map
             (fun n => (n, splitShareCents d (splitNames body.participants).length)),
           totalAmount := d,
           sharePerPersonCents := splitShareCents d (splitNames body.participants).length,
           owedToPayer := ((splitNames body.participants).filter
               (fun n => n != body.payerName)).map
             (fun n => (n, splitShareCents d (splitNames body.participants).length)) }) := by
  simp only [postSplitExpense, hp, createSplitParticipants, List.length_map]

set_option maxRecDepth 4000 in
/-- C1 counterexample: for amount 0.03 split between A and B the program
stores 0.01 per share — the double 0.03/2 is just below 0.015, so toFixed(2)
rounds down — while the claimed round(amount / count, 2 decimal places) of the
exact quotient is 0.02. -/
theorem claim_C1_counterexample :
    (postSplitExpense "u" ⟨"P", "0.03", "gum", "A,B"⟩ ⟨1, [], [], [], []⟩).1.participants =
      [⟨2, 1, "A", 1⟩, ⟨3, 1, "B", 1⟩] ∧
    roundQ ((3 : Int) * 100) ((10 : Int) ^ 2 * 2) = 2 := by decide

/-- C1 amended: a successful createSplit with a positive amount and a
non-empty participant list creates exactly one ParticipantShare row per
occurrence of a name — duplicates kept distinct, the payer's occurrence
included — in list order, and every row (and the echoed participants array)
carries one identical shareAmount: toFixed(2) of the IEEE-double quotient
parseFloat(amount) / count (splitShareCents), which equals
round(amount / count, 2) except at half-cent ties, where the double's
representation error decides the direction (0.03 over two participants stores
0.01, not 0.02). -/
theorem claim_C1_split_shares (u : String) (body : SplitBody) (db : DB) (d : DecNum)
    (hp : parseDecimal body.amount = some d) (_hpos : 0 < d.m)
    (_hne : splitNames body.participants ≠ []) :
    ∃ resp rows,
      (postSplitExpense u body db).2 = RouteResult.ok 201 resp ∧
      resp.participantsOut = (splitNames body.participants).map
        (fun n => (n, splitShareCents d (splitNames body.participants).length)) ∧
      (postSplitExpense u body db).1.participants = db.participants ++ rows ∧
      rows.map SplitParticipant.name = splitNames body.participants ∧
      (∀ r ∈ rows, r.expenseId = db.nextId ∧
        r.shareAmount = splitShareCents d (splitNames body.participants).length) := by
  rw [postSplitExpense_eq u body db d hp]
  refine ⟨_, _, rfl, rfl, rfl, ?_, ?_⟩
  · rw [createSplitParticipantRows_names db.nextId _ (db.nextId + 1)]
    rw [List.map_map]
    exact List.map_id (splitNames body.participants)
  · intro r hr
    exact createSplitParticipantRows_share db.nextId _ _ (db.nextId + 1) r hr

/-- C1 witness: payer X listed among participants "X,Y" of a 50.00 split gets
its own 25.00 share like Y does. -/
theorem claim_C1_split_shares_witness :
    ∃ resp rows,
      (postSplitExpense "w" ⟨"X", "50.00", "dinner", "X,Y"⟩ ⟨1, [], [], [], []⟩).2 =
        RouteResult.ok 201 resp ∧
      resp.participantsOut = (splitNames "X,Y").map
        (fun n => (n, splitShareCents ⟨5000, 2⟩ (splitNames "X,Y").length)) ∧
      (postSplitExpense "w" ⟨"X", "50.00", "dinner", "X,Y"⟩ ⟨1, [], [], [], []⟩).1.participants =
        ([] : List SplitParticipant) ++ rows ∧
      rows.map SplitParticipant.name = splitNames "X,Y" ∧
      (∀ r ∈ rows, r.expenseId = 1 ∧
        r.shareAmount = splitShareCents ⟨5000, 2⟩ (splitNames "X,Y").length) :=
  claim_C1_split_shares "w" ⟨"X", "50.00", "dinner", "X,Y"⟩ ⟨1, [], [], [], []⟩ ⟨5000, 2⟩
    (by decide) (by decide) (by decide)

/-- C4 counterexample: createSplit with an empty participants string does not
fail with InvalidArgument: it answers 201, persists the Expense, and persists
one ParticipantShare whose name is the empty string and whose share is the
whole amount. -/
theorem claim_C4_counterexample :
    (postSplitExpense "u" ⟨"P", "50.00", "dinner", ""⟩ ⟨1, [], [], [], []⟩).2 =
      RouteResult.ok 201
        ⟨⟨1, "u", "P", 5000, "dinner"⟩, [("", 5000)], ⟨5000, 2⟩, 5000, [("", 5000)]⟩ ∧
    (postSplitExpense "u" ⟨"P", "50.00", "dinner", ""⟩ ⟨1, [], [], [], []⟩).1 =
      ⟨3, [], [], [⟨1, "u", "P", 5000, "dinner"⟩], [⟨2, 1, "", 5000⟩]⟩ := by decide

/-- C4 amended: createSplit with an empty or all-whitespace participants
string (one whose comma-split trims to the single empty name) is not rejected:
it succeeds, persists the Expense, and persists exactly one ParticipantShare
row with empty name carrying round(amount / 1, 2) — the full amount. -/
theorem claim_C4_amended (u : String) (body : SplitBody) (db : DB) (d : DecNum)
    (hp : parseDecimal body.amount = some d)
    (hw : splitNames body.participants = [""]) :
    ∃ resp,
      (postSplitExpense u body db).2 = RouteResult.ok 201 resp ∧
      resp.participantsOut = [("", splitShareCents d 1)] ∧
      (postSplitExpense u body db).1.expenses =
        db.expenses ++ [⟨db.nextId, u, body.payerName, toCents d, body.description⟩] ∧
      (postSplitExpense u body db).1.participants =
        db.participants ++ [⟨db.nextId + 1, db.nextId, "", splitShareCents d 1⟩] := by
  rw [postSplitExpense_eq u body db d hp, hw]
  exact ⟨_, rfl, rfl, rfl, rfl⟩

/-- C4 amended witness: an all-whitespace participants field of a 75.00 split
yields one empty-named share of 75.00. -/
theorem claim_C4_amended_witness :
    ∃ resp,
      (postSplitExpense "u" ⟨"P", "75.00", "snacks", "  "⟩ ⟨1, [], [], [], []⟩).2 =
        RouteResult.ok 201 resp ∧
      resp.participantsOut = [("", splitShareCents ⟨7500, 2⟩ 1)] ∧
      (postSplitExpense "u" ⟨"P", "75.00", "snacks", "  "⟩ ⟨1, [], [], [], []⟩).1.expenses =
        ([] : List SplitExpense) ++ [⟨1, "u", "P", 7500, "snacks"⟩] ∧
      (postSplitExpense "u" ⟨"P", "75.00", "snacks", "  "⟩ ⟨1, [], [], [], []⟩).1.participants =
        ([] : List SplitParticipant) ++ [⟨2, 1, "", splitShareCents ⟨7500, 2⟩ 1⟩] :=
  claim_C4_amended "u" ⟨"P", "75.00", "snacks", "  "⟩ ⟨1, [], [], [], []⟩ ⟨7500, 2⟩
    (by decide) (by decide)

/-- C7: the owedToPayer list of a successful createSplit contains exactly the
participants whose name is not exact-string equal to payerName, in order, each
paired with the per-participant share. -/
theorem claim_C7_owed_to_payer (u : String) (body : SplitBody) (db : DB) (d : DecNum)
    (hp : parseDecimal body.amount = some d) (_hpos : 0 < d.m) :
    ∃ resp,
      (postSplitExpense u body db).2 = RouteResult.ok 201 resp ∧
      resp.owedToPayer = ((splitNames body.participants).filter
          (fun n => n != body.payerName)).map
        (fun n => (n, splitShareCents d (splitNames body.participants).length)) ∧
      resp.sharePerPersonCents = splitShareCents d (splitNames body.participants).length := by
  rw [postSplitExpense_eq u body db d hp]
  exact ⟨_, rfl, rfl, rfl⟩

/-- C7 witness: amount 100.00 over participants A, B, C with payer P yields
33.33 per head and all three in the owed list. -/
theorem claim_C7_owed_to_payer_witness :
    ∃ resp,
      (postSplitExpense "w" ⟨"P", "100.00", "trip", "A,B,C"⟩ ⟨1, [], [], [], []⟩).2 =
        RouteResult.ok 201 resp ∧
      resp.owedToPayer = [("A", 3333), ("B", 3333), ("C", 3333)] ∧
      resp.sharePerPersonCents = 3333 := by
  obtain ⟨resp, h1, h2, h3⟩ := claim_C7_owed_to_payer "w" ⟨"P", "100.00", "trip", "A,B,C"⟩
    ⟨1, [], [], [], []⟩ ⟨10000, 2⟩ (by decide) (by decide)
  exact ⟨resp, h1, h2.trans (by decide), h3.trans (by decide)⟩

/-- C9: updateSplit patches only the supplied fields among payer name, amount
and description of the matching Expense; id and owner are untouched, other
expenses are untouched, and the stored ParticipantShare rows are left exactly
as they were on every branch, including when amount is among the patched
fields. -/
theorem claim_C9_update_frame :
    (∀ (u : String) (id : Nat) (patch : SplitPatch) (db : DB),
      (putSplitHistory u id patch db).1.participants = db.participants) ∧
    (∀ (u : String) (id : Nat) (patch : SplitPatch) (db : DB) (s : String) (d : DecNum),
      patch.amount = some s → parseDecimal s = some d →
      (putSplitHistory u id patch db).1.expenses = db.expenses.map (fun e =>
        if e.id == id then
          ⟨e.id, e.userId, patch.payerName.getD e.payerName, toCents d,
           patch.description.getD e.description⟩
        else e)) ∧
    (∀ (u : String) (id : Nat) (patch : SplitPatch) (db : DB),
      patch.amount = none → (patch.payerName ≠ none ∨ patch.description ≠ none) →
      (putSplitHistory u id patch db).1.expenses = db.expenses.map (fun e =>
        if e.id == id then
          ⟨e.id, e.userId, patch.payerName.getD e.payerName, e.amount,
           patch.description.getD e.description⟩
        else e)) := by
  refine ⟨?_, ?_, ?_⟩
  · intro u id patch db
    simp only [putSplitHistory, updateSplitExpense]
    split
    · rfl
    · split
      · rfl
      · split <;> rfl
  · intro u id patch db s d ha hd
    simp [putSplitHistory, ha, hd, updateSplitExpense]
  · intro u id patch db ha hne
    cases hpn : patch.payerName with
    | some p => simp [putSplitHistory, ha, hpn, updateSplitExpense]
    | none =>
      cases hds : patch.description with
      | some q => simp [putSplitHistory, ha, hpn, hds, updateSplitExpense]
      | none =>
        rcases hne with h | h
        · exact absurd hpn h
        · exact absurd hds h

/-- C9 witness: patching payer name and amount of expense 1 leaves its 25.00
share row untouched and changes exactly the patched fields. -/
theorem claim_C9_update_frame_witness :
    (putSplitHistory "u" 1 ⟨some "Q", some "20.00", none⟩
        ⟨3, [], [], [⟨1, "u", "P", 5000, "d"⟩], [⟨2, 1, "X", 2500⟩]⟩).1.participants =
      [⟨2, 1, "X", 2500⟩] ∧
    (putSplitHistory "u" 1 ⟨some "Q", some "20.00", none⟩
        ⟨3, [], [], [⟨1, "u", "P", 5000, "d"⟩], [⟨2, 1, "X", 2500⟩]⟩).1.expenses =
      [⟨1, "u", "Q", 2000, "d"⟩] := by
  refine ⟨(claim_C9_update_frame.1 "u" 1 ⟨some "Q", some "20.00", none⟩
    ⟨3, [], [], [⟨1, "u", "P", 5000, "d"⟩], [⟨2, 1, "X", 2500⟩]⟩).trans (by decide), ?_⟩
  have h := claim_C9_update_frame.2.1 "u" 1 ⟨some "Q", some "20.00", none⟩
    ⟨3, [], [], [⟨1, "u", "P", 5000, "d"⟩], [⟨2, 1, "X", 2500⟩]⟩ "20.00" ⟨2000, 2⟩
    rfl (by decide)
  exact h.trans (by decide)

/-- C10: the split computation is deterministic and state-independent — two
invocations with the same body against any two stored states and any two
principals produce the same participants array, the same per-person share, the
same owed-to-payer list and the same total. -/
theorem claim_C10_deterministic (u1 u2 : String) (body : SplitBody) (db1 db2 : DB) (d : DecNum)
    (hp : parseDecimal body.amount = some d) :
    ∃ r1 r2,
      (postSplitExpense u1 body db1).2 = RouteResult.ok 201 r1 ∧
      (postSplitExpense u2 body db2).2 = RouteResult.ok 201 r2 ∧
      r1.participantsOut = r2.participantsOut ∧
      r1.sharePerPersonCents = r2.sharePerPersonCents ∧
      r1.owedToPayer = r2.owedToPayer ∧
      r1.totalAmount = r2.totalAmount := by
  rw [postSplitExpense_eq u1 body db1 d hp, postSplitExpense_eq u2 body db2 d hp]
  exact ⟨_, _, rfl, rfl, rfl, rfl, rfl, rfl⟩

/-- C10 witness: the same split body against an empty store and a populated
store, for different principals. -/
theorem claim_C10_deterministic_witness :
    ∃ r1 r2,
      (postSplitExpense "x" ⟨"P", "100.00", "t", "A,B,C"⟩ ⟨1, [], [], [], []⟩).2 =
        RouteResult.ok 201 r1 ∧
      (postSplitExpense "y" ⟨"P", "100.00", "t", "A,B,C"⟩
          ⟨7, [⟨5, "z", "n", "savings", 10⟩], [], [⟨6, "z", "Q", 100, "e"⟩], []⟩).2 =
        RouteResult.ok 201 r2 ∧
      r1.participantsOut = r2.participantsOut ∧
      r1.sharePerPersonCents = r2.sharePerPersonCents ∧
      r1.owedToPayer = r2.owedToPayer ∧
      r1.totalAmount = r2.totalAmount :=
  claim_C10_deterministic "x" "y" ⟨"P", "100.00", "t", "A,B,C"⟩ ⟨1, [], [], [], []⟩
    ⟨7, [⟨5, "z", "n", "savings", 10⟩], [], [⟨6, "z", "Q", 100, "e"⟩], []⟩ ⟨10000, 2⟩
    (by decide)

end PFT
